import Mathlib

/-
Verification of the URL-discovery, relevance-filtering and query-routing pipeline
of the policy scraper (src/main.py, src/scrapers/url_filter.py,
src/scrapers/sitemap_parser.py, src/rag_query.py).

Strings are modelled as Lean `String` values; the Python string primitives used
by the code (`in`, `startswith`, `endswith`, `lower`, `rstrip('/')`) are defined
below by structural recursion over the character list `String.data`, so that
every definition evaluates by kernel reduction on concrete inputs.
-/

/-- Boolean prefix test on character lists (Python `s.startswith(pat)` reads the
characters left to right). -/
def listIsPrefix : List Char → List Char → Bool
  | [], _ => true
  | _ :: _, [] => false
  | a :: as, b :: bs => a == b && listIsPrefix as bs

/-- Boolean substring test on character lists: Python `pat in s`. -/
def listContains : List Char → List Char → Bool
  | [], pat => pat.isEmpty
  | s@(_ :: tail), pat => listIsPrefix pat s || listContains tail pat

/-- Python `pat in s` on strings. -/
def strContains (s pat : String) : Bool := listContains s.data pat.data

/-- Python `s.startswith(pat)`. -/
def strStartsWith (s pat : String) : Bool := listIsPrefix pat.data s.data

/-- Python `s.endswith(pat)`. -/
def strEndsWith (s pat : String) : Bool := listIsPrefix pat.data.reverse s.data.reverse

/-- Python `s.lower()` (all text handled by the code is ASCII). -/
def strLower (s : String) : String := ⟨s.data.map Char.toLower⟩

/-- Python `s.rstrip('/')`: drop trailing slash characters. -/
def rstripSlash (s : String) : String := ⟨(s.data.reverse.dropWhile (· == '/')).reverse⟩

/-
Link Extractor: `URLFilter._extract_links_from_html` (src/scrapers/url_filter.py,
lines 17-52). The anchor hrefs that BeautifulSoup finds in the document are given
as the input list `hrefs`; HTML parsing itself is delegated to lxml in the source.
-/

/-- One iteration of the loop body over anchors (url_filter.py lines 31-42):
a path-absolute href is prefixed with `base_url.rstrip('/')`; an href that starts
with neither a slash nor the text `http` is skipped (`continue`); the (possibly
rebased) href is kept only when it starts with `http://` or `https://`. -/
def resolveHref (base_url href : String) : Option String :=
  if strStartsWith href "/" then
    if strStartsWith (rstripSlash base_url ++ href) "http://"
        || strStartsWith (rstripSlash base_url ++ href) "https://" then
      some (rstripSlash base_url ++ href)
    else none
  else if strStartsWith href "http" then
    if strStartsWith href "http://" || strStartsWith href "https://" then some href else none
  else none

/-- The `seen`-set deduplication loop of url_filter.py lines 44-50, keeping the
first occurrence of each link; `seen` carries the links already emitted. -/
def dedupFirstAux (seen : List String) : List String → List String
  | [] => []
  | x :: xs => if x ∈ seen then dedupFirstAux seen xs else x :: dedupFirstAux (x :: seen) xs

/-- Deduplication preserving first-occurrence order (url_filter.py lines 44-52). -/
def dedupFirst (l : List String) : List String := dedupFirstAux [] l

/-- `URLFilter._extract_links_from_html html base_url`, with `hrefs` the href
attributes of the anchors found in the document, in document order. -/
def extract_links_from_html (hrefs : List String) (base_url : String) : List String :=
  dedupFirst (hrefs.filterMap (resolveHref base_url))

/-
Relevance filter: `URLFilter._filter_urls_with_llm`, `_call_llm_api` and
`_keyword_fallback` (url_filter.py lines 102-235).
-/

/-- The hard-coded keyword list of `URLFilter._keyword_fallback` (lines 221-226). -/
def fallback_keywords : List String :=
  ["privacy", "policy", "policies", "terms", "legal",
   "about", "contact", "faq", "help", "support",
   "cookie", "gdpr", "compliance", "data-protection",
   "acceptable-use", "tos", "terms-of-service"]

/-- `URLFilter._keyword_fallback` (lines 211-235): keep a URL when its lower-cased
form contains at least one keyword as a substring. -/
def keyword_fallback (urls : List String) : List String :=
  urls.filter (fun url => fallback_keywords.any (fun k => strContains (strLower url) k))

/-- Result of `json.loads` on the response text followed by
`data.get('relevant_urls', [])` in `_call_llm_api` (lines 195-196): either the
text is not valid JSON (`json.loads` raises), or it yields a list of URLs
(possibly empty when the key is absent). -/
inductive ParsedResponse where
  | malformed : ParsedResponse
  | parsed (relevant_urls : List String) : ParsedResponse
deriving DecidableEq

/-- Outcome of the HTTP interaction inside `_call_llm_api`: the request itself
fails (connection error or timeout), or a response arrives with a status code
and a body whose `response` field parses as described by `ParsedResponse`. -/
inductive APIOutcome where
  | netFail : APIOutcome
  | resp (status : Nat) (body : ParsedResponse) : APIOutcome
deriving DecidableEq

/-- `URLFilter._call_llm_api` (lines 137-209) given the HTTP outcome. `Except.error`
models an exception propagating to the caller: the request raising, or the JSON
parse raising, is caught at line 207 and re-raised. A response with a non-200
status is NOT an exception: line 203-205 prints a warning and returns the empty
list. -/
def call_llm_api (outcome : APIOutcome) : Except Unit (List String) :=
  match outcome with
  | .netFail => .error ()
  | .resp status body =>
    if status == 200 then
      match body with
      | .malformed => .error ()
      | .parsed relevant_urls => .ok relevant_urls
    else
      .ok []

/-- The batches `urls[i:i+100]` visited by the loop of `_filter_urls_with_llm`
(line 119), split off front to back; the fuel argument only bounds the iteration
count and `urls.length` steps always suffice, since each step consumes at least
one element of a non-empty list. -/
def toBatchesFuel : Nat → List String → List (List String)
  | 0, _ => []
  | _, [] => []
  | fuel + 1, x :: xs => (x :: xs).take 100 :: toBatchesFuel fuel ((x :: xs).drop 100)

/-- The list of batches processed by `_filter_urls_with_llm` for input `urls`. -/
def toBatches (urls : List String) : List (List String) := toBatchesFuel urls.length urls

/-- The body of the batch loop of `_filter_urls_with_llm` (lines 122-133): try the
LLM call; when it raises, fall back to keyword matching on that batch. -/
def processBatch (api : List String → APIOutcome) (batch : List String) : List String :=
  match call_llm_api (api batch) with
  | .ok relevant_urls => relevant_urls
  | .error _ => keyword_fallback batch

/-- `URLFilter._filter_urls_with_llm` (lines 102-135), with the classifier
interaction abstracted as `api` (per batch, the HTTP outcome of its
classification call). The final `list(set(all_relevant_urls))` returns the
distinct accumulated URLs in unspecified order; it is modelled here as
first-occurrence deduplication, and only order-insensitive properties of the
result are stated. -/
def filter_urls_with_llm (api : List String → APIOutcome) (urls : List String) : List String :=
  dedupFirst ((toBatches urls).flatMap (processBatch api))

/-
Sitemap resolver: `SitemapParser.get_all_urls` (src/scrapers/sitemap_parser.py,
lines 89-122).
-/

/-- The index-detection condition of sitemap_parser.py line 104:
`urls and all('.xml' in url for url in urls[:5])` — the parsed result is
non-empty and each of its first five entries contains `.xml` as a substring. -/
def isSitemapIndex (urls : List String) : Bool :=
  !urls.isEmpty && (urls.take 5).all (fun u => strContains u ".xml")

/-- Lines 103-122 of `SitemapParser.get_all_urls`, given the URLs parsed from the
fetched top-level sitemap. `fetchParse u` stands for fetching sub-sitemap `u` and
parsing its body with `parse_sitemap` ([] when the fetch raises, the status is
not 200, or nothing parses — lines 110-118 skip such entries). Returns the
resulting URL list together with the list of sub-sitemap URLs the loop fetches. -/
def get_all_urls_from_parsed (urls : List String) (fetchParse : String → List String) :
    List String × List String :=
  if isSitemapIndex urls then (urls.flatMap fetchParse, urls) else (urls, [])

/-
Discovery orchestrator: PHASE 1 of `PolicyScraper.scrape` (src/main.py,
lines 66-80).
-/

/-- The candidate-set choice of main.py lines 69-75: fall back to homepage link
extraction when the sitemap result is empty or exceeds `max_sitemap`, labelling
the source accordingly. `homepage_links` stands for the result of the homepage
fetch plus link extraction performed in the fallback branch. -/
def discover (sitemap_urls : List String) (max_sitemap : Nat)
    (homepage_links : List String) : List String × String :=
  if sitemap_urls = [] ∨ sitemap_urls.length > max_sitemap then
    (homepage_links, "Homepage")
  else
    (sitemap_urls, "Sitemap")

/-
Query router: `ask_question` (src/rag_query.py, lines 136-260). Similarity
scores are compared only by order, so they are modelled over an arbitrary
linear order.
-/

/-- One document retrieved from the vector store, as surfaced by
`PgVectorRetriever._get_relevant_documents` (rag_query.py lines 44-64). -/
structure RetrievedDoc (α : Type) where
  title : String
  url : String
  similarity : α
deriving DecidableEq

/-- The four observable outcomes of `ask_question`: the empty-corpus report
(lines 170-174), the defer-to-Google-search decision (lines 185-208), the
configuration warning (lines 213-221), and the RAG answer — the only branch
that invokes the generation chain (lines 239-260). -/
inductive RouteOutcome (α : Type) where
  | noDocuments : RouteOutcome α
  | googleSearch : RouteOutcome α
  | configWarning : RouteOutcome α
  | ragAnswer (docs : List (RetrievedDoc α)) : RouteOutcome α
deriving DecidableEq

/-- Python `max(doc.metadata['similarity'] for doc in all_docs)` (line 177):
raises ValueError on an empty sequence, modelled as `none`. -/
def maxSimilarity {α : Type} [LinearOrder α] : List (RetrievedDoc α) → Option α
  | [] => none
  | d :: ds => some (ds.foldl (fun m x => max m x.similarity) d.similarity)

/-- The routing logic of `ask_question` (rag_query.py lines 162-260):
empty-corpus check first, then the routing comparison of the highest similarity
against `routing_threshold`, then re-filtering by the retrieval `threshold`.
The result `none` is the unreachable branch in which the maximum of an empty
sequence would be evaluated. -/
def ask_question {α : Type} [LinearOrder α] (all_docs : List (RetrievedDoc α))
    (threshold routing_threshold : α) : Option (RouteOutcome α) :=
  if all_docs = [] then some .noDocuments
  else
    match maxSimilarity all_docs with
    | none => none
    | some highest =>
      if highest < routing_threshold then some .googleSearch
      else
        let docs := all_docs.filter (fun d => decide (threshold ≤ d.similarity))
        if docs = [] then some .configWarning
        else some (.ragAnswer docs)

/-
Filter construction: `PolicyScraper.__init__` (src/main.py lines 44-52) versus
`URLFilter.__init__` (src/scrapers/url_filter.py lines 13-15).
-/

/-- The formal parameter names of `URLFilter.__init__` besides `self`
(url_filter.py line 13 declares `def __init__(self):`). -/
def urlFilterInitParams : List String := []

/-- The keyword argument names `PolicyScraper.__init__` passes when constructing
the URL filter (main.py lines 48-52). -/
def policyScraperFilterKwargs : List String := ["mode", "custom_prompt", "manual_keywords"]

/-- A Python call binds without a TypeError only if every provided keyword
argument names a formal parameter of the callee (the callee declares no
`**kwargs`). -/
def kwargsBind (params provided : List String) : Bool :=
  provided.all (fun k => params.contains k)

/-
Helper lemmas about first-occurrence deduplication.
-/

/-- Membership in the deduplication loop output: an element appears exactly when
it occurs in the remaining input and has not been seen yet. -/
theorem mem_dedupFirstAux (a : String) (l : List String) :
    ∀ seen, a ∈ dedupFirstAux seen l ↔ a ∈ l ∧ a ∉ seen := by
  induction l with
  | nil => intro seen; simp [dedupFirstAux]
  | cons x xs ih =>
    intro seen
    by_cases hx : x ∈ seen
    · rw [dedupFirstAux, if_pos hx, ih]
      constructor
      · rintro ⟨h1, h2⟩
        exact ⟨List.mem_cons_of_mem x h1, h2⟩
      · rintro ⟨h1, h2⟩
        rcases List.mem_cons.mp h1 with rfl | h
        · exact absurd hx h2
        · exact ⟨h, h2⟩
    · rw [dedupFirstAux, if_neg hx]
      constructor
      · intro h
        rcases List.mem_cons.mp h with rfl | h
        · exact ⟨List.mem_cons_self a xs, hx⟩
        · obtain ⟨h1, h2⟩ := (ih (x :: seen)).mp h
          exact ⟨List.mem_cons_of_mem x h1, fun hs => h2 (List.mem_cons_of_mem x hs)⟩
      · rintro ⟨h1, h2⟩
        rcases List.mem_cons.mp h1 with rfl | h
        · exact List.mem_cons_self a _
        · by_cases hax : a = x
          · subst hax; exact List.mem_cons_self a _
          · refine List.mem_cons_of_mem x ((ih (x :: seen)).mpr ⟨h, ?_⟩)
            intro hs
            rcases List.mem_cons.mp hs with h3 | h3
            · exact hax h3
            · exact h2 h3

/-- Membership is preserved by first-occurrence deduplication. -/
theorem mem_dedupFirst (a : String) (l : List String) : a ∈ dedupFirst l ↔ a ∈ l := by
  rw [dedupFirst, mem_dedupFirstAux]
  simp

/-- The deduplication loop emits a subsequence of its input (first-occurrence
order is preserved). -/
theorem dedupFirstAux_sublist (l : List String) :
    ∀ seen, (dedupFirstAux seen l).Sublist l := by
  induction l with
  | nil => intro seen; simp [dedupFirstAux]
  | cons x xs ih =>
    intro seen
    by_cases hx : x ∈ seen
    · rw [dedupFirstAux, if_pos hx]
      exact (ih seen).cons x
    · rw [dedupFirstAux, if_neg hx]
      exact (ih (x :: seen)).cons₂ x

/-- The deduplication loop output has no duplicates. -/
theorem nodup_dedupFirstAux (l : List String) :
    ∀ seen, (dedupFirstAux seen l).Nodup := by
  induction l with
  | nil => intro seen; simp [dedupFirstAux]
  | cons x xs ih =>
    intro seen
    by_cases hx : x ∈ seen
    · rw [dedupFirstAux, if_pos hx]
      exact ih seen
    · rw [dedupFirstAux, if_neg hx]
      refine List.nodup_cons.mpr ⟨?_, ih (x :: seen)⟩
      intro hmem
      exact ((mem_dedupFirstAux x xs (x :: seen)).mp hmem).2 (List.mem_cons_self x seen)

/-- Unfolding of the routing function on a non-empty corpus with known maximum
similarity: the emptiness test passes, and routing reduces to the two threshold
comparisons of rag_query.py lines 185 and 211-213. -/
theorem ask_question_eq {α : Type} [LinearOrder α] (all_docs : List (RetrievedDoc α))
    (threshold routing_threshold highest : α)
    (hne : all_docs ≠ []) (hmax : maxSimilarity all_docs = some highest) :
    ask_question all_docs threshold routing_threshold =
      if highest < routing_threshold then some .googleSearch
      else if all_docs.filter (fun d => decide (threshold ≤ d.similarity)) = [] then
        some .configWarning
      else some (.ragAnswer (all_docs.filter (fun d => decide (threshold ≤ d.similarity)))) := by
  unfold ask_question
  rw [if_neg hne, hmax]

/-- C2: PHASE 1 of `PolicyScraper.scrape` uses the sitemap result, with source
label "Sitemap", exactly when the sitemap yielded between 1 and `max_sitemap`
URLs; if it yielded none or more than the cap, it uses the homepage link
extraction result with source label "Homepage". -/
theorem discovery_uses_sitemap_iff (s h : List String) (m : Nat) :
    (discover s m h = (s, "Sitemap") ↔ 0 < s.length ∧ s.length ≤ m)
    ∧ (discover s m h = (h, "Homepage") ↔ ¬(0 < s.length ∧ s.length ≤ m)) := by
  unfold discover
  by_cases hc : s = [] ∨ s.length > m
  · rw [if_pos hc]
    constructor
    · constructor
      · intro he
        have hbad : "Homepage" = "Sitemap" := congrArg Prod.snd he
        exact absurd hbad (by decide)
      · rintro ⟨h1, h2⟩
        rcases hc with rfl | hgt
        · simp at h1
        · omega
    · constructor
      · intro _
        rintro ⟨h1, h2⟩
        rcases hc with rfl | hgt
        · simp at h1
        · omega
      · intro _
        rfl
  · rw [if_neg hc]
    push_neg at hc
    obtain ⟨hne, hle⟩ := hc
    constructor
    · constructor
      · intro _
        exact ⟨List.length_pos.mpr hne, hle⟩
      · intro _
        rfl
    · constructor
      · intro he
        have hbad : "Sitemap" = "Homepage" := congrArg Prod.snd he
        exact absurd hbad (by decide)
      · intro hcontra
        exact absurd ⟨List.length_pos.mpr hne, hle⟩ hcontra

/-- C6: with a non-empty retrieved set, `ask_question` defers to Google search
exactly when the highest similarity is strictly below `routing_threshold`, and
takes the RAG path (proceeding to the retrieval-threshold filter, hence ending
in the configuration warning or a RAG answer) exactly when it is greater than
or equal — the comparison is inclusive at the boundary. -/
theorem routing_comparison_inclusive {α : Type} [LinearOrder α]
    (all_docs : List (RetrievedDoc α)) (threshold routing_threshold highest : α)
    (hne : all_docs ≠ []) (hmax : maxSimilarity all_docs = some highest) :
    (ask_question all_docs threshold routing_threshold = some .googleSearch ↔
      highest < routing_threshold)
    ∧ (routing_threshold ≤ highest ↔
      (ask_question all_docs threshold routing_threshold = some .configWarning
        ∨ ∃ docs, ask_question all_docs threshold routing_threshold =
            some (.ragAnswer docs))) := by
  have heq := ask_question_eq all_docs threshold routing_threshold highest hne hmax
  by_cases hlt : highest < routing_threshold
  · rw [heq, if_pos hlt]
    refine ⟨⟨fun _ => hlt, fun _ => rfl⟩, ?_⟩
    constructor
    · intro hle
      exact absurd hlt (not_lt.mpr hle)
    · rintro (hc | ⟨docs, hc⟩)
      · exact absurd (Option.some.inj hc) (fun hh => RouteOutcome.noConfusion hh)
      · exact absurd (Option.some.inj hc) (fun hh => RouteOutcome.noConfusion hh)
  · have hle : routing_threshold ≤ highest := not_lt.mp hlt
    rw [heq, if_neg hlt]
    by_cases hfe : all_docs.filter (fun d => decide (threshold ≤ d.similarity)) = []
    · rw [if_pos hfe]
      refine ⟨?_, fun _ => Or.inl rfl, fun _ => hle⟩
      constructor
      · intro hc
        exact absurd (Option.some.inj hc) (fun hh => RouteOutcome.noConfusion hh)
      · intro h2
        exact absurd h2 hlt
    · rw [if_neg hfe]
      refine ⟨?_, fun _ => Or.inr ⟨_, rfl⟩, fun _ => hle⟩
      constructor
      · intro hc
        exact absurd (Option.some.inj hc) (fun hh => RouteOutcome.noConfusion hh)
      · intro h2
        exact absurd h2 hlt

/-- C6 witness: a single document whose similarity exactly equals the routing
threshold takes the RAG path. -/
theorem routing_comparison_inclusive_witness :
    ask_question [(⟨"t", "u", 3⟩ : RetrievedDoc ℕ)] 1 3 = some .configWarning
    ∨ ∃ docs, ask_question [(⟨"t", "u", 3⟩ : RetrievedDoc ℕ)] 1 3 =
        some (.ragAnswer docs) :=
  ((routing_comparison_inclusive [(⟨"t", "u", 3⟩ : RetrievedDoc ℕ)] 1 3 3
    (by decide) (by decide)).2).mp (by decide)

/-- C7: when the highest similarity clears the routing threshold but no document
clears the retrieval threshold, `ask_question` returns the configuration
warning, an outcome distinct from the empty-corpus report and from every RAG
answer (the only branch that invokes answer generation). -/
theorem config_warning_distinct {α : Type} [LinearOrder α]
    (all_docs : List (RetrievedDoc α)) (threshold routing_threshold highest : α)
    (hne : all_docs ≠ []) (hmax : maxSimilarity all_docs = some highest)
    (hroute : routing_threshold ≤ highest)
    (hfilter : all_docs.filter (fun d => decide (threshold ≤ d.similarity)) = []) :
    ask_question all_docs threshold routing_threshold = some .configWarning
    ∧ (RouteOutcome.configWarning : RouteOutcome α) ≠ .noDocuments
    ∧ (∀ docs, (RouteOutcome.configWarning : RouteOutcome α) ≠ .ragAnswer docs) := by
  refine ⟨?_, fun hh => RouteOutcome.noConfusion hh,
    fun docs hh => RouteOutcome.noConfusion hh⟩
  rw [ask_question_eq all_docs threshold routing_threshold highest hne hmax,
    if_neg (not_lt.mpr hroute), if_pos hfilter]

/-- C7 witness: one document with similarity 1, retrieval threshold 5, routing
threshold 1 — routing passes, the retrieval filter is empty, and the warning
outcome is produced. -/
theorem config_warning_distinct_witness :
    ask_question [(⟨"t", "u", 1⟩ : RetrievedDoc ℕ)] 5 1 = some .configWarning
    ∧ (RouteOutcome.configWarning : RouteOutcome ℕ) ≠ .noDocuments
    ∧ (∀ docs, (RouteOutcome.configWarning : RouteOutcome ℕ) ≠ .ragAnswer docs) :=
  config_warning_distinct [⟨"t", "u", 1⟩] 5 1 1 (by decide) (by decide)
    (by decide) (by decide)

/-- C8: `PolicyScraper.__init__` constructs the URL filter with keyword
arguments `mode`, `custom_prompt` and `manual_keywords` (main.py lines 48-52),
but `URLFilter.__init__` (url_filter.py line 13) accepts no parameter besides
`self`, so the keyword arguments cannot bind: the construction raises a
TypeError instead of succeeding with the chosen mode. -/
theorem url_filter_construction_fails :
    kwargsBind urlFilterInitParams policyScraperFilterKwargs = false := by decide

/-- C9: the routing function always produces an outcome — the empty-corpus
report returns before the maximum similarity is computed, so the branch that
would take the maximum of an empty sequence is unreachable for every corpus and
pair of thresholds. -/
theorem max_of_empty_unreachable {α : Type} [LinearOrder α]
    (all_docs : List (RetrievedDoc α)) (threshold routing_threshold : α) :
    (ask_question all_docs threshold routing_threshold).isSome = true
    ∧ ask_question ([] : List (RetrievedDoc α)) threshold routing_threshold =
        some .noDocuments := by
  constructor
  · cases all_docs with
    | nil => rfl
    | cons d ds =>
      rw [ask_question_eq (d :: ds) threshold routing_threshold
        (ds.foldl (fun m (x : RetrievedDoc α) => max m x.similarity) d.similarity)
        (by simp) rfl]
      split
      · rfl
      · split
        · rfl
        · rfl
  · rfl

/-- A response with a non-success status makes `_call_llm_api` return the empty
list without raising (url_filter.py lines 203-205). -/
theorem call_llm_api_nonsuccess (status : Nat) (body : ParsedResponse)
    (hs : status ≠ 200) : call_llm_api (.resp status body) = .ok [] := by
  have hb : (status == 200) = false := by simpa using hs
  simp [call_llm_api, hb]

/-- C1 counterexample: a classification call answered with a non-success HTTP
status (here 500) does not trigger the keyword fallback — `_call_llm_api`
returns the empty list without raising (url_filter.py lines 203-205), so the
batch contributes nothing, although the keyword algorithm would have kept its
URL. -/
theorem nonsuccess_status_skips_fallback :
    filter_urls_with_llm (fun _ => .resp 500 .malformed) ["https://x.com/privacy"] = []
    ∧ keyword_fallback ["https://x.com/privacy"] = ["https://x.com/privacy"]
    ∧ filter_urls_with_llm (fun _ => .resp 500 .malformed) ["https://x.com/privacy"] ≠
        dedupFirst (keyword_fallback ["https://x.com/privacy"]) := by
  refine ⟨by decide, by decide, by decide⟩

/-- C1 (amended): per batch, an exception from the classification call — a
network error or timeout, or a 200 response whose body fails to parse — is
caught and the keyword-mode algorithm is applied to exactly that batch; a
response with a non-success HTTP status instead yields an empty contribution
for that batch, without keyword fallback; in every case the filter operation as
a whole does not fail, and each batch contribution reaches the final result. -/
theorem llm_batch_failure_fallback (api : List String → APIOutcome)
    (urls batch : List String) (hb : batch ∈ toBatches urls) :
    (api batch = .netFail ∨ api batch = .resp 200 .malformed →
      processBatch api batch = keyword_fallback batch)
    ∧ (∀ status body, status ≠ 200 → api batch = .resp status body →
      processBatch api batch = [])
    ∧ (∀ u, u ∈ processBatch api batch → u ∈ filter_urls_with_llm api urls) := by
  refine ⟨?_, ?_, ?_⟩
  · rintro (hcase | hcase) <;> rw [processBatch, hcase] <;> rfl
  · intro status body hs hcase
    rw [processBatch, hcase, call_llm_api_nonsuccess status body hs]
  · intro u hu
    rw [filter_urls_with_llm, mem_dedupFirst]
    exact List.mem_flatMap.mpr ⟨batch, hb, hu⟩

/-- C1 witness: a network failure on the single batch of a one-URL input is
handled by keyword fallback, and the fallback result reaches the output. -/
theorem llm_batch_failure_fallback_witness :
    processBatch (fun _ => .netFail) ["https://x.com/privacy"] =
        keyword_fallback ["https://x.com/privacy"]
    ∧ "https://x.com/privacy" ∈
        filter_urls_with_llm (fun _ => .netFail) ["https://x.com/privacy"] := by
  have h := llm_batch_failure_fallback (fun _ => .netFail) ["https://x.com/privacy"]
    ["https://x.com/privacy"] (by decide)
  exact ⟨h.1 (Or.inl rfl), h.2.2 "https://x.com/privacy" (by decide)⟩

/-- C3 counterexample: a parsed sitemap whose single entry contains `.xml` but
does not end with an XML extension is nevertheless treated as an index — the
code tests substring containment (`'.xml' in url`), not the suffix — so the
result is the flattened sub-fetch, not the unchanged leaf list. -/
theorem xml_substring_not_suffix_counterexample :
    strEndsWith "https://e.com/sitemap.xml?page=2" ".xml" = false
    ∧ (get_all_urls_from_parsed ["https://e.com/sitemap.xml?page=2"]
        (fun _ => ["https://e.com/page1"])).1 = ["https://e.com/page1"]
    ∧ ["https://e.com/page1"] ≠ ["https://e.com/sitemap.xml?page=2"] := by
  refine ⟨by decide, by decide, by decide⟩

/-- C3 (amended): for every parsed sitemap result, the resolver treats it as an
index — fetching the listed sub-sitemaps and flattening their entries — if and
only if it is non-empty and each of its first five entries CONTAINS `.xml` as a
substring (not: ends with an XML extension); otherwise the result is returned
as a leaf sitemap unchanged. -/
theorem sitemap_index_detection (urls : List String) (fetchParse : String → List String) :
    (isSitemapIndex urls = true ↔
      urls ≠ [] ∧ ∀ u ∈ urls.take 5, strContains u ".xml" = true)
    ∧ (isSitemapIndex urls = true →
      (get_all_urls_from_parsed urls fetchParse).1 = urls.flatMap fetchParse)
    ∧ (isSitemapIndex urls = false →
      (get_all_urls_from_parsed urls fetchParse).1 = urls) := by
  refine ⟨?_, ?_, ?_⟩
  · unfold isSitemapIndex
    simp [List.all_eq_true, List.isEmpty_iff]
  · intro hidx
    rw [get_all_urls_from_parsed, if_pos hidx]
  · intro hidx
    rw [get_all_urls_from_parsed, if_neg (by simp [hidx])]

/-- C3 witness: two entries ending in `.xml` are detected as an index and
expanded through the sub-fetch. -/
theorem sitemap_index_detection_witness :
    (get_all_urls_from_parsed ["https://e.com/a.xml", "https://e.com/b.xml"]
      (fun _ => ["https://e.com/p1"])).1 =
      ["https://e.com/a.xml", "https://e.com/b.xml"].flatMap
        (fun _ => ["https://e.com/p1"]) :=
  (sitemap_index_detection ["https://e.com/a.xml", "https://e.com/b.xml"]
    (fun _ => ["https://e.com/p1"])).2.1 (by decide)

/-- C4: index expansion happens at most once — the sub-sitemap URLs fetched by
the loop are exactly drawn from the top-level parsed entries (never from the
contents of a fetched sub-sitemap), their number is bounded by the size of the
parsed result, and even when every fetched sub-sitemap is itself index-like its
entries are flattened verbatim rather than expanded again, so the resolver
performs a bounded number of fetches regardless of how deeply the fetched data
nests. -/
theorem sitemap_expansion_once (urls : List String) (fetchParse : String → List String) :
    ((get_all_urls_from_parsed urls fetchParse).2.length ≤ urls.length)
    ∧ (∀ v ∈ (get_all_urls_from_parsed urls fetchParse).2, v ∈ urls)
    ∧ (isSitemapIndex urls = true →
      (∀ u ∈ urls, isSitemapIndex (fetchParse u) = true) →
      (get_all_urls_from_parsed urls fetchParse).1 = urls.flatMap fetchParse) := by
  unfold get_all_urls_from_parsed
  by_cases hidx : isSitemapIndex urls = true
  · rw [if_pos hidx]
    exact ⟨le_refl _, fun v hv => hv, fun _ _ => rfl⟩
  · rw [if_neg hidx]
    exact ⟨Nat.zero_le _, fun v hv => absurd hv (List.not_mem_nil v),
      fun hc _ => absurd hc hidx⟩

/-- C4 witness: an index whose sub-sitemaps are themselves index-like is still
expanded exactly once. -/
theorem sitemap_expansion_once_witness :
    (get_all_urls_from_parsed ["https://w.org/idx.xml"]
      (fun _ => ["https://w.org/sub.xml"])).1 =
      ["https://w.org/idx.xml"].flatMap (fun _ => ["https://w.org/sub.xml"]) :=
  (sitemap_expansion_once ["https://w.org/idx.xml"]
    (fun _ => ["https://w.org/sub.xml"])).2.2 (by decide) (by decide)

/-- Written from the claim wording, for comparison with the code: "the
scheme+host of base_url" — the scheme, the separator, and the host up to the
next slash. -/
def specSchemeHost (u : String) : String :=
  if strStartsWith u "https://" then
    "https://" ++ ⟨(u.data.drop 8).takeWhile (· != '/')⟩
  else if strStartsWith u "http://" then
    "http://" ++ ⟨(u.data.drop 7).takeWhile (· != '/')⟩
  else u

/-- C5 counterexample: a path-absolute href is prefixed with the WHOLE base URL
stripped of trailing slashes (url_filter.py line 36), not with its scheme+host:
with base_url `https://x.com/sub`, the href `/p` yields
`https://x.com/sub/p`, and the scheme+host resolution `https://x.com/p` the
claim promises is not in the output. -/
theorem slash_prefix_counterexample :
    extract_links_from_html ["/p"] "https://x.com/sub" = ["https://x.com/sub/p"]
    ∧ specSchemeHost "https://x.com/sub" ++ "/p" = "https://x.com/p"
    ∧ "https://x.com/p" ∉ extract_links_from_html ["/p"] "https://x.com/sub" := by
  refine ⟨by decide, by decide, by decide⟩

/-- C5 (amended): every href starting with a path-absolute slash is prefixed
with the whole `base_url` stripped of trailing slashes (which equals the
scheme+host only when `base_url` is a bare origin) and appears in the output
whenever that concatenation is an http(s) URL; no string lacking an `http://`
or `https://` prefix (mailto:, tel:, javascript:, fragment-only) ever appears
in the output; every output entry begins with `http://` or `https://`; and the
output is a first-occurrence deduplication of the per-href resolution stream,
hence duplicate-free with order preserved. -/
theorem extract_links_spec (hrefs : List String) (base_url : String) :
    (∀ href ∈ hrefs, strStartsWith href "/" = true →
      (strStartsWith (rstripSlash base_url ++ href) "http://" = true
        ∨ strStartsWith (rstripSlash base_url ++ href) "https://" = true) →
      (rstripSlash base_url ++ href) ∈ extract_links_from_html hrefs base_url)
    ∧ (∀ u ∈ extract_links_from_html hrefs base_url,
      strStartsWith u "http://" = true ∨ strStartsWith u "https://" = true)
    ∧ (extract_links_from_html hrefs base_url).Sublist
        (hrefs.filterMap (resolveHref base_url))
    ∧ (extract_links_from_html hrefs base_url).Nodup := by
  refine ⟨?_, ?_, dedupFirstAux_sublist _ [], nodup_dedupFirstAux _ []⟩
  · intro href hmem h1 h2
    rw [extract_links_from_html, mem_dedupFirst]
    refine List.mem_filterMap.mpr ⟨href, hmem, ?_⟩
    rw [resolveHref, if_pos h1]
    rw [if_pos (Bool.or_eq_true _ _ |>.mpr h2)]
  · intro u hu
    rw [extract_links_from_html, mem_dedupFirst] at hu
    obtain ⟨href, _, hres⟩ := List.mem_filterMap.mp hu
    rw [resolveHref] at hres
    split_ifs at hres with h1 h2 h3 h4
    · exact (Bool.or_eq_true _ _).mp (Option.some.inj hres ▸ h2)
    · exact (Bool.or_eq_true _ _).mp (Option.some.inj hres ▸ h4)

/-- C5 witness: the slash href `/privacy` against the bare origin
`https://x.com` appears in the output as `https://x.com/privacy`. -/
theorem extract_links_spec_witness :
    "https://x.com/privacy" ∈ extract_links_from_html ["/privacy"] "https://x.com" := by
  have heq : rstripSlash "https://x.com" ++ "/privacy" = "https://x.com/privacy" := by
    decide
  have h := (extract_links_spec ["/privacy"] "https://x.com").1 "/privacy"
    (by decide) (by decide) (by decide)
  rw [heq] at h
  exact h

/-- C10: the LLM-mode filter performs no membership check on the classifier
response — every URL in a successfully parsed `relevant_urls` array reaches the
output even when it does not occur in the input batch (so the output is not
guaranteed to be a subset of the input, witnessed by the concrete injected
URL), whereas the keyword fallback always returns a subsequence of its input. -/
theorem llm_response_membership_unchecked (api : List String → APIOutcome)
    (urls batch rs : List String) (u : String)
    (hb : batch ∈ toBatches urls) (hr : api batch = .resp 200 (.parsed rs))
    (hu : u ∈ rs) :
    u ∈ filter_urls_with_llm api urls
    ∧ (∀ us : List String, (keyword_fallback us).Sublist us)
    ∧ "https://other.example" ∈ filter_urls_with_llm
        (fun _ => .resp 200 (.parsed ["https://other.example"])) ["https://x.com/a"]
    ∧ "https://other.example" ∉ ["https://x.com/a"] := by
  refine ⟨?_, fun us => List.filter_sublist us, by decide, by decide⟩
  rw [filter_urls_with_llm, mem_dedupFirst]
  refine List.mem_flatMap.mpr ⟨batch, hb, ?_⟩
  rw [processBatch, hr]
  exact hu

/-- C10 witness: a URL invented by the classifier, absent from the one-URL
input, still appears in the filter output. -/
theorem llm_response_membership_unchecked_witness :
    "https://injected.example/x" ∈ filter_urls_with_llm
      (fun _ => .resp 200 (.parsed ["https://injected.example/x"]))
      ["https://site.com/a"] :=
  (llm_response_membership_unchecked
    (fun _ => .resp 200 (.parsed ["https://injected.example/x"]))
    ["https://site.com/a"] ["https://site.com/a"] ["https://injected.example/x"]
    "https://injected.example/x" (by decide) rfl (by decide)).1
